import Mathlib

/-
Verification of the sparsey ECS core against its specification.

Shallow embedding conventions:
* Machine integers (`u16`/`u32`/`usize` bitmasks, ticks) are modelled as `Nat`;
  bitwise union is `Nat.lor` (`|||`).  None of the verified operations can
  overflow a mask, and the tick overflow check is explicit in the source.
* A Rust slice reference used only for identity (`ptr::eq` on a group family)
  is modelled as a `Nat` identifier together with an environment
  `fams : Nat → List Group` giving the content of each family, so that pointer
  equality is identifier equality and content is determined by the identifier.
* A Rust `panic!` or out-of-bounds index is modelled as a distinguished
  outcome (`none` of an outer `Option`, or an explicit constructor), noted at
  each definition.
-/

namespace Sparsey

/-! Masks and groups (src/group/info.rs, src/entity/component_storage.rs). -/

/-- Bitmask over the storage slots of a group family (`StorageMask` in the
source, a newtype over an unsigned integer). -/
abbrev StorageMask := Nat

/-- Pair of storage masks used to test group membership (`QueryMask` in the
source).  The source field names `include` and `exclude` are reserved words in
Lean, so the fields are named `incl` and `excl`. -/
structure QueryMask where
  incl : StorageMask
  excl : StorageMask
  deriving DecidableEq, Repr, Inhabited

/-- Per-group metadata, as constructed in `ComponentStorage::new`
(src/entity/component_storage.rs).  `skip_mask` is a `GroupMask`, modelled as
`Nat`. -/
structure GroupMetadata where
  storage_start : Nat
  new_storage_start : Nat
  storage_end : Nat
  skip_mask : Nat
  include_mask : QueryMask
  exclude_mask : QueryMask
  deriving DecidableEq, Repr, Inhabited

/-- One group of a family: its metadata and the number of currently grouped
entities (`Group` in the source). -/
structure Group where
  metadata : GroupMetadata
  len : Nat
  deriving DecidableEq, Repr, Inhabited

/-- Group info of a single view (src/group/info.rs `GroupInfo`): the family it
belongs to (a slice reference in the source, here the family identifier), the
offset of its group within the family, and its storage mask bit. -/
structure GroupInfo where
  group_family : Nat
  group_offset : Nat
  storage_mask : StorageMask
  deriving DecidableEq, Repr

/-- Combined group info of several views (src/group/info.rs
`CombinedGroupInfo`): optional family, maximum group offset seen so far, and
the union of the storage masks. -/
structure CombinedGroupInfo where
  group_family : Option Nat
  max_group_offset : Nat
  storage_mask : StorageMask
  deriving DecidableEq, Repr

/-- Default `CombinedGroupInfo`, as produced by `#[derive(Default)]` in the
source: no family, offset 0, empty mask. -/
def CombinedGroupInfo.default : CombinedGroupInfo :=
  { group_family := none, max_group_offset := 0, storage_mask := 0 }

/-- Embedding of `CombinedGroupInfo::combine` (src/group/info.rs, lines
36-53): `ptr::eq` on the family slices becomes equality of family
identifiers. -/
def CombinedGroupInfo.combine (self : CombinedGroupInfo) (info : GroupInfo) :
    Option CombinedGroupInfo :=
  match self.group_family with
  | some gf =>
      if gf = info.group_family then
        some { group_family := some gf,
               max_group_offset := max self.max_group_offset info.group_offset,
               storage_mask := self.storage_mask ||| info.storage_mask }
      else
        none
  | none =>
      some { group_family := some info.group_family,
             max_group_offset := info.group_offset,
             storage_mask := info.storage_mask }

/-- Loop body of `common_group_family` (src/group/info.rs, lines 55-72).  The
accumulator is the first family seen; a second, different family aborts with
`none` (the early `return None` of the source). -/
def commonGroupFamilyGo (acc : Option Nat) : List (Option Nat) → Option Nat
  | [] => acc
  | none :: rest => commonGroupFamilyGo acc rest
  | some gf :: rest =>
      match acc with
      | some gf0 => if gf0 = gf then commonGroupFamilyGo acc rest else none
      | none => commonGroupFamilyGo (some gf) rest

/-- Embedding of `common_group_family` (src/group/info.rs): the family shared
by all present infos, or `none` when there is a conflict or no family at
all. -/
def common_group_family (group_families : List (Option Nat)) : Option Nat :=
  commonGroupFamilyGo none group_families

/-- Half-open index range, standing for Rust's `Range<usize>`. -/
structure NatRange where
  start : Nat
  stop : Nat
  deriving DecidableEq, Repr

/-- Embedding of `group_range` (src/group/info.rs, lines 76-106).  The source
indexes the family slice with `group_family[max_group_offset]` and, in the
exclude branch, `group_family[max_group_offset - 1]`; an out-of-bounds index
(including the `usize` underflow when `max_group_offset = 0`) panics in the
source and is modelled here as `none`.  Those branches are unreachable for the
well-formed infos handed out by the component storage. -/
def group_range (fams : Nat → List Group)
    (base includeInfo excludeInfo : CombinedGroupInfo) : Option NatRange :=
  match common_group_family
      [base.group_family, includeInfo.group_family, excludeInfo.group_family] with
  | none => none
  | some fam =>
      let max_group_offset :=
        max (max base.max_group_offset includeInfo.max_group_offset)
          excludeInfo.max_group_offset
      let group_mask : QueryMask :=
        ⟨base.storage_mask ||| includeInfo.storage_mask, excludeInfo.storage_mask⟩
      match (fams fam).get? max_group_offset with
      | none => none
      | some group =>
          if group_mask = group.metadata.include_mask then
            some ⟨0, group.len⟩
          else if group_mask = group.metadata.exclude_mask then
            if max_group_offset = 0 then
              none
            else
              match (fams fam).get? (max_group_offset - 1) with
              | none => none
              | some prev_group => some ⟨group.len, prev_group.len⟩
          else
            none

namespace Components

/-- Group info of one or more views (src/components/group_info.rs
`GroupInfo`): the `NonNull<Group>` family pointer is modelled as a family
identifier, plus the offset of the last group any view belongs to and the
union of the views' storage masks. -/
structure GroupInfo where
  family : Nat
  group_offset : Nat
  storage_mask : StorageMask
  deriving DecidableEq, Repr

/-- Embedding of `GroupInfo::combine` (src/components/group_info.rs, lines
36-47): `none` on distinct families, otherwise maximum offset and mask
union. -/
def GroupInfo.combine (self info : GroupInfo) : Option GroupInfo :=
  if self.family ≠ info.family then
    none
  else
    some { family := self.family,
           group_offset := max self.group_offset info.group_offset,
           storage_mask := self.storage_mask ||| info.storage_mask }

end Components

namespace EntityNS

/-- Group info of a view in the src/entity version
(src/entity/group_info.rs): the view holds the prefix `&groups[0..group_end]`
of its family's group slice.  The slice is modelled as the family identifier
(its start pointer, compared by `ptr::eq` on `as_ptr`) together with its
length `group_end`; the group offset of the view is `group_end - 1`. -/
structure GroupInfo where
  family : Nat
  group_end : Nat
  storage_mask : StorageMask
  deriving DecidableEq, Repr

/-- Embedding of `GroupInfo::combine` (src/entity/group_info.rs, lines 21-32):
`none` when the slices start at different families, otherwise the longer
prefix (`cmp::max_by_key` on the slice length) and the mask union. -/
def GroupInfo.combine (self other : GroupInfo) : Option GroupInfo :=
  if self.family ≠ other.family then
    none
  else
    some { family := self.family,
           group_end := max self.group_end other.group_end,
           storage_mask := self.storage_mask ||| other.storage_mask }

end EntityNS

/-- Concrete family used to witness C1: a family of two nested groups. -/
def c1Fams : Nat → List Group := fun _ =>
  [ { metadata :=
        { storage_start := 0, new_storage_start := 0, storage_end := 2,
          skip_mask := 0, include_mask := ⟨3, 0⟩, exclude_mask := ⟨0, 3⟩ },
      len := 9 },
    { metadata :=
        { storage_start := 0, new_storage_start := 2, storage_end := 3,
          skip_mask := 0, include_mask := ⟨7, 0⟩, exclude_mask := ⟨3, 4⟩ },
      len := 5 } ]

/-- Base info for the C1 witness: views over the outer group with the full
include mask. -/
def c1Base : CombinedGroupInfo :=
  { group_family := some 0, max_group_offset := 1, storage_mask := 7 }

/-- Empty include modifier for the C1 witness. -/
def c1Incl : CombinedGroupInfo := CombinedGroupInfo.default

/-- Empty exclude modifier for the C1 witness. -/
def c1Excl : CombinedGroupInfo := CombinedGroupInfo.default

/-- Base info for the C1 witness at group offset 0: views over the innermost
group with its full include mask. -/
def c1BaseInner : CombinedGroupInfo :=
  { group_family := some 0, max_group_offset := 0, storage_mask := 3 }

/-- Base info for the C1 witness whose mask matches neither mask of the
innermost group. -/
def c1BaseNone : CombinedGroupInfo :=
  { group_family := some 0, max_group_offset := 0, storage_mask := 1 }

/-- Exclude modifier for the C1 witness of the exclusion window: the outer
group's added storage. -/
def c1ExclOuter : CombinedGroupInfo :=
  { group_family := some 0, max_group_offset := 1, storage_mask := 4 }

/-! Component storage (src/entity/component_storage.rs). -/

/-- Per-type metadata held by the component storage
(src/entity/component_storage.rs `ComponentMetadata`).  `insert_mask` and
`delete_mask` are `GroupMask`s, modelled as `Nat`. -/
structure ComponentMetadata where
  storage_index : Nat
  insert_mask : Nat
  delete_mask : Nat
  group_end : Nat
  storage_mask : StorageMask
  deriving DecidableEq, Repr, Inhabited

/-- Model of one `ComponentSparseSet`.  Modelled from the spec: the sparse
set's own source file is not under src/, Section 3 of the spec gives its
fields (sparse vec, dense entities, dense data, dense change ticks).  Data
values are modelled as `Nat`. -/
structure ComponentSparseSet where
  sparse : List (Nat × Nat × Nat)
  entities : List Nat
  data : List Nat
  ticks : List (Nat × Nat)
  deriving DecidableEq, Repr

/-- Empty sparse set, as created by `ComponentSparseSet::new::<T>`. -/
def ComponentSparseSet.new : ComponentSparseSet :=
  { sparse := [], entities := [], data := [], ticks := [] }

/-- Model of `ComponentStorage`: groups, per-type metadata (the source's
`FxHashMap<TypeId, ComponentMetadata>` modelled as an association list keyed
by the type name), and the sparse sets. -/
structure ComponentStorage where
  groups : List Group
  metadata : List (String × ComponentMetadata)
  components : List ComponentSparseSet
  deriving DecidableEq, Repr

/-- Lookup in the metadata map (`self.metadata.get(&TypeId::of::<T>())`). -/
def lookupMeta (metadata : List (String × ComponentMetadata)) (ty : String) :
    Option ComponentMetadata :=
  (metadata.find? (fun p => p.1 == ty)).map (·.2)

/-- Embedding of `ComponentStorage::register` (src/entity/component_storage.rs,
lines 76-96): nothing happens and `false` is returned when the type is already
present; otherwise a metadata entry with `storage_index = components.len()`
and all-empty masks is inserted, an empty sparse set is appended, and `true`
is returned. -/
def ComponentStorage.register (self : ComponentStorage) (ty : String) :
    ComponentStorage × Bool :=
  match lookupMeta self.metadata ty with
  | some _ => (self, false)
  | none =>
      ({ self with
          metadata := self.metadata ++
            [(ty, { storage_index := self.components.length, insert_mask := 0,
                    delete_mask := 0, group_end := 0, storage_mask := 0 })],
          components := self.components ++ [ComponentSparseSet.new] },
        true)

/-- Embedding of `ComponentStorage::is_registered`. -/
def ComponentStorage.is_registered (self : ComponentStorage) (ty : String) : Bool :=
  (lookupMeta self.metadata ty).isSome

/-- Borrow state of one sparse set's runtime-checked cell.  Modelled from the
spec, Section 5 (the `AtomicRefCell` implementation is an external dependency,
not under src/): a cell is free, held by one or more shared readers, or held
by one exclusive writer. -/
inductive BorrowState where
  | free
  | shared
  | exclusive
  deriving DecidableEq, Repr

/-- Result of a borrow: a view; the `panic_missing_comp::<T>` panic
(src/entity/component_storage.rs, lines 199-203), which carries the name of
the missing component in its message; or the `AtomicRefCell` borrow-conflict
panic (the spec's `BorrowConflict`), raised when the set's cell is already
incompatibly borrowed. -/
inductive BorrowResult (α : Type) where
  | ok (value : α)
  | panicMissingComp (component : String)
  | panicBorrowConflict
  deriving DecidableEq, Repr

/-- View handed out by `borrow`/`borrow_mut`: the index of the borrowed
sparse set and, when the type is grouped (nonzero storage mask), the group
info built from the prefix `groups[0..group_end]` and the storage mask. -/
structure CompView where
  storage_index : Nat
  group_info : Option EntityNS.GroupInfo
  deriving DecidableEq, Repr

/-- Embedding of `ComponentStorage::borrow` (src/entity/component_storage.rs,
lines 137-161).  The metadata lookup comes first, so an unregistered type
panics `MissingComponent` whatever the borrow states.  For a registered type
the source calls `AtomicRefCell::borrow()` on the set's cell, which admits
further shared readers but panics (`BorrowConflict`) when the cell is
exclusively borrowed; the cells' states are passed as `borrows`, indexed by
storage index.  The family identifier of the produced group info is 0: a
single storage owns a single group slice, whose start pointer all views
share. -/
def ComponentStorage.borrow (self : ComponentStorage)
    (borrows : Nat → BorrowState) (ty : String) : BorrowResult CompView :=
  match lookupMeta self.metadata ty with
  | none => .panicMissingComp ty
  | some metadata =>
      match borrows metadata.storage_index with
      | .exclusive => .panicBorrowConflict
      | _ =>
          .ok { storage_index := metadata.storage_index,
                group_info :=
                  if metadata.storage_mask ≠ 0 then
                    some { family := 0, group_end := metadata.group_end,
                           storage_mask := metadata.storage_mask }
                  else
                    none }

/-- Embedding of `ComponentStorage::borrow_mut` (src/entity/component_storage.rs,
lines 163-187).  As `borrow`, but the source calls
`AtomicRefCell::borrow_mut()`, which panics (`BorrowConflict`) on any
outstanding borrow of the cell, shared or exclusive. -/
def ComponentStorage.borrow_mut (self : ComponentStorage)
    (borrows : Nat → BorrowState) (ty : String) : BorrowResult CompView :=
  match lookupMeta self.metadata ty with
  | none => .panicMissingComp ty
  | some metadata =>
      match borrows metadata.storage_index with
      | .free =>
          .ok { storage_index := metadata.storage_index,
                group_info :=
                  if metadata.storage_mask ≠ 0 then
                    some { family := 0, group_end := metadata.group_end,
                           storage_mask := metadata.storage_mask }
                  else
                    none }
      | _ => .panicBorrowConflict

/-- Metadata entry of the single registered type of `c7Storage`. -/
def c7Meta : ComponentMetadata :=
  { storage_index := 0, insert_mask := 0, delete_mask := 0, group_end := 0,
    storage_mask := 0 }

/-- Storage used by the C7 counterexample and witness: one registered,
ungrouped type. -/
def c7Storage : ComponentStorage :=
  { groups := [], metadata := [("Position", c7Meta)],
    components := [ComponentSparseSet.new] }

/-- Borrow states with every cell free. -/
def c7Free : Nat → BorrowState := fun _ => .free

/-- Borrow states with every cell exclusively borrowed. -/
def c7Exclusive : Nat → BorrowState := fun _ => .exclusive

/-- Borrow states with every cell borrowed by shared readers. -/
def c7Shared : Nat → BorrowState := fun _ => .shared

/-! Insert/remove ordering of `ComponentSet` (src/entity/component_storage.rs,
`impl_component_set`).  The macro expands, for each tuple of component types,
into straight-line code whose effects on the storage are: per-type sparse-set
operations and a single group or ungroup pass.  The embedding records those
effects in order as a trace, generically over the list of type names the tuple
would contain. -/

/-- One observable effect of a `ComponentSet` operation on the storage. -/
inductive StorageEvent where
  | setInsert (storage_index : Nat)
  | setRemove (storage_index : Nat)
  | groupPass (mask : Nat)
  | ungroupPass (mask : Nat)
  deriving DecidableEq, Repr

/-- Loop of `ComponentSet::insert`: for each component type in tuple order,
look up its metadata (panicking, modelled as `none`, when unregistered), or
its `insert_mask` into the accumulated group mask, and insert into its sparse
set; after the loop, run one group pass with the accumulated mask. -/
def componentSetInsertGo (metadata : List (String × ComponentMetadata))
    (group_mask : Nat) (events : List StorageEvent) :
    List String → Option (List StorageEvent)
  | [] => some (events ++ [.groupPass group_mask])
  | ty :: rest =>
      match lookupMeta metadata ty with
      | none => none
      | some m =>
          componentSetInsertGo metadata (group_mask ||| m.insert_mask)
            (events ++ [.setInsert m.storage_index]) rest

/-- Embedding of `ComponentSet::insert` (src/entity/component_storage.rs,
lines 224-251) as its event trace. -/
def componentSetInsertTrace (metadata : List (String × ComponentMetadata))
    (types : List String) : Option (List StorageEvent) :=
  componentSetInsertGo metadata 0 [] types

/-- First loop of `ComponentSet::remove`/`delete`: collect the storage indexes
and the union of the `delete_mask`s without touching any sparse set. -/
def componentSetRemoveIndexes (metadata : List (String × ComponentMetadata))
    (group_mask : Nat) (indexes : List Nat) :
    List String → Option (List Nat × Nat)
  | [] => some (indexes, group_mask)
  | ty :: rest =>
      match lookupMeta metadata ty with
      | none => none
      | some m =>
          componentSetRemoveIndexes metadata (group_mask ||| m.delete_mask)
            (indexes ++ [m.storage_index]) rest

/-- Embedding of `ComponentSet::remove` (src/entity/component_storage.rs,
lines 253-281) as its event trace: one ungroup pass with the accumulated mask,
then the swap-removals from the sparse sets in tuple order. -/
def componentSetRemoveTrace (metadata : List (String × ComponentMetadata))
    (types : List String) : Option (List StorageEvent) :=
  match componentSetRemoveIndexes metadata 0 [] types with
  | none => none
  | some (indexes, group_mask) =>
      some (.ungroupPass group_mask :: indexes.map .setRemove)

/-- Union of the `insert_mask`s of the given types. -/
def unionInsertMasks (metadata : List (String × ComponentMetadata))
    (types : List String) : Nat :=
  types.foldl
    (fun acc ty => acc ||| ((lookupMeta metadata ty).map (·.insert_mask)).getD 0) 0

/-- Union of the `delete_mask`s of the given types. -/
def unionDeleteMasks (metadata : List (String × ComponentMetadata))
    (types : List String) : Nat :=
  types.foldl
    (fun acc ty => acc ||| ((lookupMeta metadata ty).map (·.delete_mask)).getD 0) 0

/-- Storage indexes of the given types, in tuple order. -/
def storageIndexes (metadata : List (String × ComponentMetadata))
    (types : List String) : List Nat :=
  types.filterMap (fun ty => (lookupMeta metadata ty).map (·.storage_index))

/-- Metadata table used to witness C4: two grouped component types. -/
def c4Metadata : List (String × ComponentMetadata) :=
  [ ("A", { storage_index := 0, insert_mask := 3, delete_mask := 2,
            group_end := 2, storage_mask := 1 }),
    ("B", { storage_index := 1, insert_mask := 6, delete_mask := 4,
            group_end := 2, storage_mask := 2 }) ]

/-! Tick model (src/world/world.rs). -/

/-- Maximum value of the `Ticks` counter.  `Ticks` is `u32` in the source
(crate::utils, declared outside src/), so the maximum is `2 ^ 32 - 1`. -/
def TicksMAX : Nat := 4294967295

/-- Outcome of `World::advance_ticks`: `Ok(())` or `Err(TickOverflow)`. -/
inductive TickResult where
  | ok
  | tickOverflow
  deriving DecidableEq, Repr

/-- Embedding of `World::advance_ticks` (src/world/world.rs, lines 259-267),
as a function of the current world tick (a `NonZeroTicks`, so at least 1):
returns the new tick and the result. -/
def World.advance_ticks (tick : Nat) : Nat × TickResult :=
  if tick ≠ TicksMAX then
    (tick + 1, .ok)
  else
    (1, .tickOverflow)

/-! Entities and sparse lookup (src/entity/mod.rs; sparse vec modelled from
spec Section 4.A, its source file is not under src/). -/

/-- Entity identifier: sparse index and generation
(src/entity/mod.rs `Entity`; the generation is a `NonZeroU32` named
`version`). -/
structure Entity where
  index : Nat
  version : Nat
  deriving DecidableEq, Repr

/-- Model of a sparse array over entities.  Modelled from the spec, Sections 3
and 4.A: a mapping from sparse index to `(dense_index, generation)`, here an
association list of `(index, dense_index, version)` triples. -/
structure SparseArray where
  slots : List (Nat × Nat × Nat)
  deriving DecidableEq, Repr

/-- Sparse lookup with generation check (spec 4.A: return the dense index
only if the stored generation matches). -/
def SparseArray.get (self : SparseArray) (entity : Entity) : Option Nat :=
  match self.slots.find? (fun p => p.1 == entity.index) with
  | none => none
  | some p => if p.2.2 = entity.version then some p.2.1 else none

/-- Membership test used by `includes_split`/`excludes_split`. -/
def SparseArray.contains (self : SparseArray) (entity : Entity) : Bool :=
  (self.get entity).isSome

/-! Sparse iteration (src/query/iter/sparse.rs `SparseIter::next`,
src/query/iter_sparse.rs, src/query/mod.rs `split_sparse`).  A tuple of views
is modelled as a list, which covers every arity the macros generate. -/

/-- Embedding of `includes_split` for a tuple of sparse arrays
(`$(sparse.$idx.contains(entity))&&+`). -/
def includes_split (sparse : List SparseArray) (entity : Entity) : Bool :=
  sparse.all (fun s => s.contains entity)

/-- Embedding of `excludes_split` for a tuple of sparse arrays
(`$(!sparse.$idx.contains(entity))&&+`). -/
def excludes_split (sparse : List SparseArray) (entity : Entity) : Bool :=
  sparse.all (fun s => !(s.contains entity))

/-- Embedding of `get_index_from_split`
(`Some(($(sparse.$idx.get(entity)?,)+))`): the dense indexes of the entity in
every base array, or `none` if any lookup fails. -/
def get_index_from_split (sparse : List SparseArray) (entity : Entity) :
    Option (List Nat) :=
  match sparse with
  | [] => some []
  | s :: rest =>
      match s.get entity with
      | none => none
      | some index => (get_index_from_split rest entity).map (index :: ·)

/-- Embedding of the `SparseIter::next` loop (src/query/iter/sparse.rs, lines
43-59), run to exhaustion: walk the entity slice; for each entity test the
exclude arrays, then the include arrays, then fetch the dense indexes from the
base arrays; yield `(entity, indexes)` on success and silently skip
otherwise. -/
def sparseIterItems (entities : List Entity) (base incl excl : List SparseArray) :
    List (Entity × List Nat) :=
  match entities with
  | [] => []
  | entity :: rest =>
      if excludes_split excl entity && includes_split incl entity then
        match get_index_from_split base entity with
        | some indexes => (entity, indexes) :: sparseIterItems rest base incl excl
        | none => sparseIterItems rest base incl excl
      else
        sparseIterItems rest base incl excl

/-- Fold of `split_sparse` over the views' entity slices (src/query/mod.rs,
lines 320-342): keep the first slice seen, replace it whenever a later view's
slice is strictly shorter. -/
def splitSparseEntitiesGo (acc : Option (List Entity)) :
    List (Option (List Entity)) → Option (List Entity)
  | [] => acc
  | none :: rest => splitSparseEntitiesGo acc rest
  | some view_entities :: rest =>
      match acc with
      | none => splitSparseEntitiesGo (some view_entities) rest
      | some old_entities =>
          if view_entities.length < old_entities.length then
            splitSparseEntitiesGo (some view_entities) rest
          else
            splitSparseEntitiesGo (some old_entities) rest

/-- Entity slice selected by `split_sparse` from the base views' slices. -/
def split_sparse_entities (slices : List (Option (List Entity))) :
    Option (List Entity) :=
  splitSparseEntitiesGo none slices

/-- Entity used by the C3 witness. -/
def c3Entity : Entity := ⟨1, 1⟩

/-- Base sparse array for the C3 witness, containing `c3Entity` at dense
index 0. -/
def c3Array : SparseArray := ⟨[(1, 0, 1)]⟩

/-! Empty query (src/query/mod.rs lines 112-193 `Query for ()`,
src/query/query.rs lines 96-188 `Query for ()`). -/

namespace UnitQuery

/-- `contains_all` of the unit query: constantly true. -/
def contains_all (_view : Unit) (_entity : Entity) : Bool := true

/-- `contains_none` of the unit query: constantly true. -/
def contains_none (_view : Unit) (_entity : Entity) : Bool := true

/-- `get` of the unit query: always `Some(())`. -/
def get (_view : Unit) (_entity : Entity) : Option Unit := some ()

/-- `split_sparse` of the unit query: no entity slice, unit sparse data. -/
def split_sparse (_view : Unit) : Option (List Entity) × Unit := (none, ())

end UnitQuery

/-! World façade (src/world/world.rs).  The entity storage and the
`ComponentSet` insert path live outside src/ and are modelled from the spec
where noted. -/

/-- Error returned by `World::append` on an unknown or stale entity. -/
inductive NoSuchEntity where
  | mk
  deriving DecidableEq, Repr

/-- Model of `World`: the current tick, the live entities (the
`EntityStorage`, modelled from the spec as the set of live ids, Section 4.H),
the component data of all storages as a `(type, entity, value)` table, and the
registered component types.  Group state is omitted: the group passes permute
dense arrays only and do not change which entity has which component. -/
structure World where
  tick : Nat
  entities : List Entity
  components : List (String × Entity × Nat)
  registered : List String
  deriving DecidableEq, Repr

/-- Embedding of `World::contains` (src/world/world.rs, lines 247-249):
liveness of the exact `(index, generation)` pair. -/
def World.contains (self : World) (entity : Entity) : Bool :=
  self.entities.contains entity

/-- Value of component `ty` on `entity`, if any. -/
def getComponent (components : List (String × Entity × Nat)) (ty : String)
    (entity : Entity) : Option Nat :=
  (components.find? (fun p => p.1 == ty && p.2.1 == entity)).map (·.2.2)

/-- Overwrite-or-insert of one component value (spec 4.B `insert`: overwrite
when present, append when absent; position in the table is irrelevant to the
model). -/
def setComponent (components : List (String × Entity × Nat)) (ty : String)
    (entity : Entity) (value : Nat) : List (String × Entity × Nat) :=
  components.filter (fun p => !(p.1 == ty && p.2.1 == entity)) ++
    [(ty, entity, value)]

/-- Model of the `C::insert` call performed by `append_with_ticks`.  Modelled
from the spec (4.D `insert`): each tuple element goes into its sparse set; an
unregistered type panics (`MissingComponent`), modelled as `none`.  The
subsequent group passes reorder dense arrays only, so they do not appear in
the component table. -/
def insertComponentsGo (registered : List String)
    (components : List (String × Entity × Nat)) (entity : Entity) :
    List (String × Nat) → Option (List (String × Entity × Nat))
  | [] => some components
  | (ty, value) :: rest =>
      if registered.contains ty then
        insertComponentsGo registered (setComponent components ty entity value)
          entity rest
      else
        none

/-- Embedding of `World::append`/`append_with_ticks` (src/world/world.rs,
lines 170-196): an entity not contained in the world is rejected with
`Err(NoSuchEntity)` before any storage is touched; otherwise the components
are inserted.  The outer `Option` models panics: `none` is the
`MissingComponent` panic inside `C::insert`. -/
def World.append (self : World) (entity : Entity) (components : List (String × Nat)) :
    Option (World × Except NoSuchEntity Unit) :=
  if !(self.contains entity) then
    some (self, .error NoSuchEntity.mk)
  else
    match insertComponentsGo self.registered self.components entity components with
    | none => none
    | some table => some ({ self with components := table }, .ok ())

/-- World used by the C6 witness: one live entity, one registered type. -/
def c6World : World :=
  { tick := 1, entities := [⟨0, 1⟩], components := [], registered := ["Position"] }

/-- World used by the C6 witness for the error path: no live entities. -/
def c6EmptyWorld : World :=
  { tick := 1, entities := [], components := [], registered := ["Position"] }

/-! Mutable component references (src/data/component_ref.rs). -/

/-- The per-slot `ComponentFlags::CHANGED` bit (bit 1 of the flags byte). -/
def CHANGED : Nat := 2

/-- Embedding of `ComponentRefMut`: the referenced data and the referenced
flags byte. -/
structure ComponentRefMut (α : Type) where
  data : α
  flags : Nat
  deriving DecidableEq, Repr

/-- Embedding of the `Deref` impl (src/data/component_ref.rs, lines 22-28):
reads the data, touches nothing. -/
def ComponentRefMut.deref (self : ComponentRefMut α) : α := self.data

/-- Embedding of the `DerefMut` impl (src/data/component_ref.rs, lines
30-35): inserts `CHANGED` into the flags and hands out the data for
mutation. -/
def ComponentRefMut.deref_mut (self : ComponentRefMut α) :
    α × ComponentRefMut α :=
  (self.data, { self with flags := self.flags ||| CHANGED })

/-- One access through a `ComponentRefMut` during a call: a shared deref, or
a write (which in Rust must go through `deref_mut`). -/
inductive RefAccess (α : Type) where
  | shared
  | write (value : α)
  deriving DecidableEq, Repr

/-- Effect of one access on the reference: shared derefs change nothing;
writes go through `deref_mut` and then store the new value. -/
def applyAccess (self : ComponentRefMut α) : RefAccess α → ComponentRefMut α
  | .shared => self
  | .write value =>
      let (_, marked) := self.deref_mut
      { marked with data := value }

/-- State of the reference after a sequence of accesses. -/
def runAccesses (self : ComponentRefMut α) (accesses : List (RefAccess α)) :
    ComponentRefMut α :=
  accesses.foldl applyAccess self

/-! Theorems. -/

/-- C1: with all three combined infos sharing one group family, `group_range`
evaluated at the maximum group offset `off` of base, include and exclude
returns the dense window `some ⟨0, group.len⟩` when the combined mask equals
the group's include mask (at every offset, including 0), the exclusion window
`some ⟨group.len, prev.len⟩` (with `prev` the group at `off - 1`, so `off`
must be positive for `family[off-1]` to exist) when it equals the group's
exclude mask, and `none` when it equals neither (again at every offset). -/
theorem c1_group_range_branches (fams : Nat → List Group)
    (base includeInfo excludeInfo : CombinedGroupInfo) (fam off : Nat)
    (hfam : common_group_family
      [base.group_family, includeInfo.group_family, excludeInfo.group_family]
        = some fam)
    (hoffeq : off = max (max base.max_group_offset includeInfo.max_group_offset)
        excludeInfo.max_group_offset)
    (hoff : off < (fams fam).length) :
    ((⟨base.storage_mask ||| includeInfo.storage_mask,
        excludeInfo.storage_mask⟩ : QueryMask) =
        ((fams fam).getD off default).metadata.include_mask →
      group_range fams base includeInfo excludeInfo =
        some ⟨0, ((fams fam).getD off default).len⟩) ∧
    ((⟨base.storage_mask ||| includeInfo.storage_mask,
        excludeInfo.storage_mask⟩ : QueryMask) ≠
        ((fams fam).getD off default).metadata.include_mask →
      (⟨base.storage_mask ||| includeInfo.storage_mask,
        excludeInfo.storage_mask⟩ : QueryMask) =
        ((fams fam).getD off default).metadata.exclude_mask →
      0 < off →
      group_range fams base includeInfo excludeInfo =
        some ⟨((fams fam).getD off default).len,
          ((fams fam).getD (off - 1) default).len⟩) ∧
    ((⟨base.storage_mask ||| includeInfo.storage_mask,
        excludeInfo.storage_mask⟩ : QueryMask) ≠
        ((fams fam).getD off default).metadata.include_mask →
      (⟨base.storage_mask ||| includeInfo.storage_mask,
        excludeInfo.storage_mask⟩ : QueryMask) ≠
        ((fams fam).getD off default).metadata.exclude_mask →
      group_range fams base includeInfo excludeInfo = none) := by
  subst hoffeq
  have hoff' : max (max base.max_group_offset includeInfo.max_group_offset)
      excludeInfo.max_group_offset - 1 < (fams fam).length :=
    lt_of_le_of_lt (Nat.sub_le _ _) hoff
  have hget : (fams fam).get? (max (max base.max_group_offset
      includeInfo.max_group_offset) excludeInfo.max_group_offset) =
      some ((fams fam).getD (max (max base.max_group_offset
        includeInfo.max_group_offset) excludeInfo.max_group_offset) default) := by
    simp [List.get?_eq_getElem?, List.getElem?_eq_getElem hoff,
      List.getD_eq_getElem?_getD]
  have hget' : (fams fam).get? (max (max base.max_group_offset
      includeInfo.max_group_offset) excludeInfo.max_group_offset - 1) =
      some ((fams fam).getD (max (max base.max_group_offset
        includeInfo.max_group_offset) excludeInfo.max_group_offset - 1)
        default) := by
    simp [List.get?_eq_getElem?, List.getElem?_eq_getElem hoff',
      List.getD_eq_getElem?_getD]
  refine ⟨?_, ?_, ?_⟩
  · intro hmask
    unfold group_range
    rw [hfam]
    simp only [hget]
    rw [if_pos hmask]
  · intro hne hmask hpos
    unfold group_range
    rw [hfam]
    simp only [hget]
    rw [if_neg hne, if_pos hmask, if_neg (Nat.pos_iff_ne_zero.mp hpos)]
    simp only [hget']
  · intro hne1 hne2
    unfold group_range
    rw [hfam]
    simp only [hget]
    rw [if_neg hne1, if_neg hne2]

/-- Witness for C1 at a concrete family, exercising every branch: the dense
window at offset 0 (innermost group) and at offset 1, the exclusion window at
offset 1, and the `none` branch at offset 0. -/
theorem c1_group_range_branches_witness :
    group_range c1Fams c1BaseInner c1Incl c1Excl = some ⟨0, 9⟩ ∧
    group_range c1Fams c1Base c1Incl c1Excl = some ⟨0, 5⟩ ∧
    group_range c1Fams c1BaseInner c1Incl c1ExclOuter = some ⟨5, 9⟩ ∧
    group_range c1Fams c1BaseNone c1Incl c1Excl = none :=
  ⟨((c1_group_range_branches c1Fams c1BaseInner c1Incl c1Excl 0 0 (by decide)
      (by decide) (by decide)).1 (by decide)).trans (by decide),
    ((c1_group_range_branches c1Fams c1Base c1Incl c1Excl 0 1 (by decide)
      (by decide) (by decide)).1 (by decide)).trans (by decide),
    ((c1_group_range_branches c1Fams c1BaseInner c1Incl c1ExclOuter 0 1
      (by decide) (by decide) (by decide)).2.1 (by decide) (by decide)
      (by decide)).trans (by decide),
    (c1_group_range_branches c1Fams c1BaseNone c1Incl c1Excl 0 0 (by decide)
      (by decide) (by decide)).2.2 (by decide) (by decide)⟩

/-- C2: combining two `GroupInfo`s succeeds exactly when they refer to the
same group family, and then the result carries the maximum of the two group
offsets and the union of the two storage masks.  Stated for the three combine
functions in the source: the src/components version, the src/entity version
(where the group offset is encoded as the length of the family prefix slice),
and the src/group fold over `CombinedGroupInfo`. -/
theorem c2_group_info_combine :
    (∀ a b : Components.GroupInfo,
      ((a.combine b).isSome ↔ a.family = b.family) ∧
      a.combine b =
        if a.family = b.family then
          some { family := a.family,
                 group_offset := max a.group_offset b.group_offset,
                 storage_mask := a.storage_mask ||| b.storage_mask }
        else none) ∧
    (∀ a b : EntityNS.GroupInfo,
      ((a.combine b).isSome ↔ a.family = b.family) ∧
      a.combine b =
        if a.family = b.family then
          some { family := a.family,
                 group_end := max a.group_end b.group_end,
                 storage_mask := a.storage_mask ||| b.storage_mask }
        else none) ∧
    (∀ (gf offset : Nat) (mask : StorageMask) (b : GroupInfo),
      ((CombinedGroupInfo.combine ⟨some gf, offset, mask⟩ b).isSome ↔
        gf = b.group_family) ∧
      CombinedGroupInfo.combine ⟨some gf, offset, mask⟩ b =
        if gf = b.group_family then
          some { group_family := some gf,
                 max_group_offset := max offset b.group_offset,
                 storage_mask := mask ||| b.storage_mask }
        else none) := by
  refine ⟨fun a b => ?_, fun a b => ?_, fun gf offset mask b => ?_⟩
  · by_cases h : a.family = b.family <;>
      simp [Components.GroupInfo.combine, h]
  · by_cases h : a.family = b.family <;>
      simp [EntityNS.GroupInfo.combine, h]
  · by_cases h : gf = b.group_family <;>
      simp [CombinedGroupInfo.combine, h]

/-- Witness for C2 at concrete infos sharing family 3. -/
theorem c2_group_info_combine_witness :
    Components.GroupInfo.combine ⟨3, 0, 1⟩ ⟨3, 1, 2⟩ = some ⟨3, 1, 3⟩ :=
  ((c2_group_info_combine.1 ⟨3, 0, 1⟩ ⟨3, 1, 2⟩).2).trans (by decide)

/-- Counterexample to C7 as stated: "Position" is registered, yet `borrow`
does not return a view while the type's cell is exclusively borrowed — it
raises the `AtomicRefCell` borrow-conflict panic — and `borrow_mut` likewise
panics while the cell is held by shared readers (spec Section 5 and scenario
S6). -/
theorem c7_borrow_conflict_counterexample :
    c7Storage.is_registered "Position" = true ∧
    c7Storage.borrow c7Exclusive "Position" = .panicBorrowConflict ∧
    c7Storage.borrow_mut c7Shared "Position" = .panicBorrowConflict := by
  refine ⟨rfl, rfl, rfl⟩

/-- C7 (amended): `borrow` and `borrow_mut` panic naming the missing
component exactly when the type is not registered, whatever the borrow
states; for a registered type, `borrow` returns a view exactly when the
type's cell is not exclusively borrowed, `borrow_mut` exactly when the cell
is free, and in every remaining registered case the call raises the
borrow-conflict panic instead of returning a view. -/
theorem c7_borrow_missing_panics :
    ∀ (storage : ComponentStorage) (borrows : Nat → BorrowState) (ty : String),
      (storage.borrow borrows ty = .panicMissingComp ty ↔
        lookupMeta storage.metadata ty = none) ∧
      (storage.borrow_mut borrows ty = .panicMissingComp ty ↔
        lookupMeta storage.metadata ty = none) ∧
      ((∃ view, storage.borrow borrows ty = .ok view) ↔
        (∃ m, lookupMeta storage.metadata ty = some m ∧
          borrows m.storage_index ≠ .exclusive)) ∧
      ((∃ view, storage.borrow_mut borrows ty = .ok view) ↔
        (∃ m, lookupMeta storage.metadata ty = some m ∧
          borrows m.storage_index = .free)) ∧
      (storage.borrow borrows ty = .panicBorrowConflict ↔
        (∃ m, lookupMeta storage.metadata ty = some m ∧
          borrows m.storage_index = .exclusive)) ∧
      (storage.borrow_mut borrows ty = .panicBorrowConflict ↔
        (∃ m, lookupMeta storage.metadata ty = some m ∧
          borrows m.storage_index ≠ .free)) := by
  intro storage borrows ty
  cases h : lookupMeta storage.metadata ty with
  | none =>
      simp [ComponentStorage.borrow, ComponentStorage.borrow_mut, h]
  | some m =>
      cases hb : borrows m.storage_index <;>
        simp [ComponentStorage.borrow, ComponentStorage.borrow_mut, h, hb]

/-- Witness for the amended C7: with a free cell both borrows yield views, a
shared cell still admits `borrow`, and an unregistered type panics with its
name. -/
theorem c7_borrow_missing_panics_witness :
    (∃ view, c7Storage.borrow c7Free "Position" = .ok view) ∧
    (∃ view, c7Storage.borrow_mut c7Free "Position" = .ok view) ∧
    (∃ view, c7Storage.borrow c7Shared "Position" = .ok view) ∧
    ComponentStorage.borrow ⟨[], [], []⟩ c7Free "Velocity" =
      .panicMissingComp "Velocity" :=
  ⟨(c7_borrow_missing_panics c7Storage c7Free "Position").2.2.1.mpr
      ⟨c7Meta, rfl, by decide⟩,
    (c7_borrow_missing_panics c7Storage c7Free "Position").2.2.2.1.mpr
      ⟨c7Meta, rfl, rfl⟩,
    (c7_borrow_missing_panics c7Storage c7Shared "Position").2.2.1.mpr
      ⟨c7Meta, rfl, by decide⟩,
    (c7_borrow_missing_panics ⟨[], [], []⟩ c7Free "Velocity").1.mpr rfl⟩

/-- C8: registering an already-present type returns `false` and changes
nothing; registering an absent type appends one empty sparse set, gives it
metadata with empty storage mask, empty insert mask and empty delete mask, and
returns `true`. -/
theorem c8_register (storage : ComponentStorage) (ty : String) :
    (storage.register ty =
      if (lookupMeta storage.metadata ty).isSome then
        (storage, false)
      else
        ({ storage with
            metadata := storage.metadata ++
              [(ty, { storage_index := storage.components.length,
                      insert_mask := 0, delete_mask := 0, group_end := 0,
                      storage_mask := 0 })],
            components := storage.components ++ [ComponentSparseSet.new] },
          true)) ∧
    (lookupMeta storage.metadata ty = none →
      lookupMeta (storage.register ty).1.metadata ty =
        some { storage_index := storage.components.length, insert_mask := 0,
               delete_mask := 0, group_end := 0, storage_mask := 0 }) := by
  constructor
  · cases h : lookupMeta storage.metadata ty <;>
      simp [ComponentStorage.register, h]
  · intro h
    have hfind : storage.metadata.find? (fun p => p.1 == ty) = none := by
      unfold lookupMeta at h
      cases hf : storage.metadata.find? (fun p => p.1 == ty) <;> simp [hf] at h ⊢
    simp [ComponentStorage.register, lookupMeta, hfind, List.find?_append]

/-- Witness for C8: registering a fresh type in the empty storage. -/
theorem c8_register_witness :
    lookupMeta (ComponentStorage.register ⟨[], [], []⟩ "Position").1.metadata
        "Position" =
      some { storage_index := 0, insert_mask := 0, delete_mask := 0,
             group_end := 0, storage_mask := 0 } :=
  (c8_register ⟨[], [], []⟩ "Position").2 (by decide)

theorem componentSetInsertGo_closed
    (metadata : List (String × ComponentMetadata)) (types : List String)
    (h : ∀ ty ∈ types, (lookupMeta metadata ty).isSome) :
    ∀ (group_mask : Nat) (events : List StorageEvent),
      componentSetInsertGo metadata group_mask events types =
        some ((events ++ (storageIndexes metadata types).map .setInsert) ++
          [.groupPass (types.foldl
            (fun acc ty =>
              acc ||| ((lookupMeta metadata ty).map (·.insert_mask)).getD 0)
            group_mask)]) := by
  induction types with
  | nil => intro group_mask events; simp [componentSetInsertGo, storageIndexes]
  | cons ty rest ih =>
      intro group_mask events
      have hty : (lookupMeta metadata ty).isSome := h ty (by simp)
      obtain ⟨m, hm⟩ := Option.isSome_iff_exists.mp hty
      have hrest : ∀ t ∈ rest, (lookupMeta metadata t).isSome := by
        intro t ht; exact h t (by simp [ht])
      simp only [componentSetInsertGo, hm, storageIndexes, List.filterMap_cons,
        Option.map_some, List.foldl_cons, Option.getD_some]
      rw [ih hrest]
      simp [storageIndexes]

theorem componentSetRemoveIndexes_closed
    (metadata : List (String × ComponentMetadata)) (types : List String)
    (h : ∀ ty ∈ types, (lookupMeta metadata ty).isSome) :
    ∀ (group_mask : Nat) (indexes : List Nat),
      componentSetRemoveIndexes metadata group_mask indexes types =
        some (indexes ++ storageIndexes metadata types,
          types.foldl
            (fun acc ty =>
              acc ||| ((lookupMeta metadata ty).map (·.delete_mask)).getD 0)
            group_mask) := by
  induction types with
  | nil => intro group_mask indexes; simp [componentSetRemoveIndexes, storageIndexes]
  | cons ty rest ih =>
      intro group_mask indexes
      obtain ⟨m, hm⟩ := Option.isSome_iff_exists.mp (h ty (by simp))
      have hrest : ∀ t ∈ rest, (lookupMeta metadata t).isSome := by
        intro t ht; exact h t (by simp [ht])
      simp only [componentSetRemoveIndexes, hm, storageIndexes,
        List.filterMap_cons, Option.map_some, List.foldl_cons, Option.getD_some]
      rw [ih hrest]
      simp [storageIndexes]

/-- C4: when every type of the tuple is registered, the trace of
`ComponentSet::insert` is the per-type sparse-set insertions in tuple order
followed by exactly one group pass keyed by the union of the types'
`insert_mask`s, and the trace of `ComponentSet::remove` is exactly one ungroup
pass keyed by the union of the types' `delete_mask`s followed by the per-type
swap-removals in tuple order. -/
theorem c4_insert_remove_order (metadata : List (String × ComponentMetadata))
    (types : List String)
    (h : ∀ ty ∈ types, (lookupMeta metadata ty).isSome) :
    componentSetInsertTrace metadata types =
      some ((storageIndexes metadata types).map .setInsert ++
        [.groupPass (unionInsertMasks metadata types)]) ∧
    componentSetRemoveTrace metadata types =
      some (.ungroupPass (unionDeleteMasks metadata types) ::
        (storageIndexes metadata types).map .setRemove) := by
  constructor
  · have := componentSetInsertGo_closed metadata types h 0 []
    simpa [componentSetInsertTrace, unionInsertMasks] using this
  · have := componentSetRemoveIndexes_closed metadata types h 0 []
    simp [componentSetRemoveTrace, this, unionDeleteMasks]

/-- Witness for C4 at a concrete two-type tuple. -/
theorem c4_insert_remove_order_witness :
    componentSetInsertTrace c4Metadata ["A", "B"] =
      some [.setInsert 0, .setInsert 1, .groupPass 7] ∧
    componentSetRemoveTrace c4Metadata ["A", "B"] =
      some [.ungroupPass 6, .setRemove 0, .setRemove 1] := by
  have h := c4_insert_remove_order c4Metadata ["A", "B"] (by decide)
  exact ⟨h.1.trans (by decide), h.2.trans (by decide)⟩

/-- C5: `advance_ticks` increases the tick by exactly one and returns `Ok`
whenever the tick is below its maximum; at the maximum it resets the tick to
exactly 1 and returns `Err(TickOverflow)`, and that is the only tick value at
which the overflow is signalled, so each wrap-around signals exactly once. -/
theorem c5_advance_ticks :
    ∀ tick : Nat,
      (World.advance_ticks tick =
        if tick = TicksMAX then (1, .tickOverflow) else (tick + 1, .ok)) ∧
      ((World.advance_ticks tick).2 = .tickOverflow ↔ tick = TicksMAX) := by
  intro tick
  by_cases h : tick = TicksMAX <;> simp [World.advance_ticks, h]

/-- Witness for C5 below the maximum and at the maximum. -/
theorem c5_advance_ticks_witness :
    World.advance_ticks 5 = (6, .ok) ∧
    World.advance_ticks TicksMAX = (1, .tickOverflow) :=
  ⟨(c5_advance_ticks 5).1.trans (by decide),
    (c5_advance_ticks TicksMAX).1.trans (by simp)⟩

theorem get_index_from_split_isSome (base : List SparseArray) (entity : Entity) :
    (get_index_from_split base entity).isSome = true ↔
      ∀ s ∈ base, s.contains entity = true := by
  induction base with
  | nil => simp [get_index_from_split]
  | cons s rest ih =>
      cases h : s.get entity with
      | none =>
          simp [get_index_from_split, h, SparseArray.contains]
      | some index =>
          simp [get_index_from_split, h, ih, SparseArray.contains]

theorem sparseIterItems_mem (entities : List Entity)
    (base incl excl : List SparseArray) (entity : Entity) :
    (∃ indexes, (entity, indexes) ∈ sparseIterItems entities base incl excl) ↔
      (entity ∈ entities ∧ excludes_split excl entity = true ∧
        includes_split incl entity = true ∧
        ∀ s ∈ base, s.contains entity = true) := by
  induction entities with
  | nil => simp [sparseIterItems]
  | cons head rest ih =>
      simp only [sparseIterItems]
      by_cases hc : (excludes_split excl head && includes_split incl head) = true
      · obtain ⟨hce, hci⟩ : excludes_split excl head = true ∧
            includes_split incl head = true := by simpa using hc
        rw [if_pos hc]
        cases hidx : get_index_from_split base head with
        | some indexes =>
            constructor
            · rintro ⟨idx, hmem⟩
              rcases List.mem_cons.mp hmem with hmem | hmem
              · injection hmem with h1 h2
                subst h1
                exact ⟨List.mem_cons_self _ _, hce, hci,
                  (get_index_from_split_isSome _ _).mp (by simp [hidx])⟩
              · obtain ⟨hmem2, hexcl, hincl, hbase⟩ := ih.mp ⟨idx, hmem⟩
                exact ⟨List.mem_cons_of_mem _ hmem2, hexcl, hincl, hbase⟩
            · rintro ⟨hmem, hexcl, hincl, hbase⟩
              rcases List.mem_cons.mp hmem with hmem | hmem
              · subst hmem
                exact ⟨indexes, List.mem_cons_self _ _⟩
              · obtain ⟨idx, hidx2⟩ := ih.mpr ⟨hmem, hexcl, hincl, hbase⟩
                exact ⟨idx, List.mem_cons_of_mem _ hidx2⟩
        | none =>
            rw [ih]
            constructor
            · rintro ⟨hmem, hexcl, hincl, hbase⟩
              exact ⟨List.mem_cons_of_mem _ hmem, hexcl, hincl, hbase⟩
            · rintro ⟨hmem, hexcl, hincl, hbase⟩
              rcases List.mem_cons.mp hmem with hmem | hmem
              · subst hmem
                have hsome : (get_index_from_split base entity).isSome = true :=
                  (get_index_from_split_isSome base entity).mpr hbase
                rw [hidx] at hsome
                cases hsome
              · exact ⟨hmem, hexcl, hincl, hbase⟩
      · rw [if_neg hc, ih]
        constructor
        · rintro ⟨hmem, hexcl, hincl, hbase⟩
          exact ⟨List.mem_cons_of_mem _ hmem, hexcl, hincl, hbase⟩
        · rintro ⟨hmem, hexcl, hincl, hbase⟩
          rcases List.mem_cons.mp hmem with hmem | hmem
          · subst hmem
            exact absurd (by rw [hexcl, hincl]; rfl) hc
          · exact ⟨hmem, hexcl, hincl, hbase⟩

theorem splitSparseEntitiesGo_eq_none (slices : List (Option (List Entity))) :
    ∀ acc, splitSparseEntitiesGo acc slices = none ↔
      (acc = none ∧ ∀ s ∈ slices, s = none) := by
  induction slices with
  | nil => intro acc; simp [splitSparseEntitiesGo]
  | cons s rest ih =>
      intro acc
      cases s with
      | none => simp [splitSparseEntitiesGo, ih]
      | some view_entities =>
          cases acc with
          | none =>
              show splitSparseEntitiesGo (some view_entities) rest = none ↔ _
              simp [ih]
          | some old_entities =>
              by_cases hlt : view_entities.length < old_entities.length <;>
                simp [splitSparseEntitiesGo, hlt, ih]

theorem splitSparseEntitiesGo_spec (slices : List (Option (List Entity))) :
    ∀ acc vs, splitSparseEntitiesGo acc slices = some vs →
      (some vs ∈ slices ∨ acc = some vs) ∧
      (∀ ws, some ws ∈ slices → vs.length ≤ ws.length) ∧
      (∀ ws, acc = some ws → vs.length ≤ ws.length) := by
  induction slices with
  | nil =>
      intro acc vs h
      have hacc : acc = some vs := h
      refine ⟨Or.inr hacc, by simp, ?_⟩
      intro ws hws
      rw [hacc] at hws
      cases hws
      exact Nat.le_refl _
  | cons s rest ih =>
      intro acc vs h
      cases s with
      | none =>
          obtain ⟨h1, h2, h3⟩ := ih acc vs h
          refine ⟨h1.imp (List.mem_cons_of_mem _) id, ?_, h3⟩
          intro ws hws
          rcases List.mem_cons.mp hws with hws | hws
          · cases hws
          · exact h2 ws hws
      | some us =>
          cases acc with
          | none =>
              obtain ⟨h1, h2, h3⟩ := ih (some us) vs h
              refine ⟨?_, ?_, ?_⟩
              · rcases h1 with h1 | h1
                · exact Or.inl (List.mem_cons_of_mem _ h1)
                · exact Or.inl (by rw [← h1]; exact List.mem_cons_self _ _)
              · intro ws hws
                rcases List.mem_cons.mp hws with hws | hws
                · exact h3 ws hws.symm
                · exact h2 ws hws
              · intro ws hws
                cases hws
          | some old =>
              by_cases hlt : us.length < old.length
              · have h' : splitSparseEntitiesGo (some us) rest = some vs := by
                  simpa [splitSparseEntitiesGo, hlt] using h
                obtain ⟨h1, h2, h3⟩ := ih (some us) vs h'
                refine ⟨?_, ?_, ?_⟩
                · rcases h1 with h1 | h1
                  · exact Or.inl (List.mem_cons_of_mem _ h1)
                  · exact Or.inl (by rw [← h1]; exact List.mem_cons_self _ _)
                · intro ws hws
                  rcases List.mem_cons.mp hws with hws | hws
                  · exact h3 ws hws.symm
                  · exact h2 ws hws
                · intro ws hws
                  cases hws
                  exact Nat.le_trans (h3 us rfl) (Nat.le_of_lt hlt)
              · have h' : splitSparseEntitiesGo (some old) rest = some vs := by
                  simpa [splitSparseEntitiesGo, hlt] using h
                obtain ⟨h1, h2, h3⟩ := ih (some old) vs h'
                refine ⟨?_, ?_, ?_⟩
                · rcases h1 with h1 | h1
                  · exact Or.inl (List.mem_cons_of_mem _ h1)
                  · exact Or.inr h1
                · intro ws hws
                  rcases List.mem_cons.mp hws with hws | hws
                  · cases hws
                    exact Nat.le_trans (h3 old rfl) (Nat.le_of_not_lt hlt)
                  · exact h2 ws hws
                · intro ws hws
                  exact h3 ws hws

/-- C3: sparse iteration selects the shortest entities slice among the views
that have one (none is selected exactly when no view has a slice), and its
item stream contains an entry for an entity exactly when that entity lies on
the walked slice, is absent from every exclude array, present in every
include array, and present in every base array; all other entities are
skipped. -/
theorem c3_sparse_iteration :
    (∀ slices : List (Option (List Entity)),
      (split_sparse_entities slices = none ↔ ∀ s ∈ slices, s = none) ∧
      (∀ vs, split_sparse_entities slices = some vs →
        some vs ∈ slices ∧ ∀ ws, some ws ∈ slices → vs.length ≤ ws.length)) ∧
    (∀ (entities : List Entity) (base incl excl : List SparseArray)
        (entity : Entity),
      (∃ indexes, (entity, indexes) ∈ sparseIterItems entities base incl excl) ↔
        (entity ∈ entities ∧ excludes_split excl entity = true ∧
          includes_split incl entity = true ∧
          ∀ s ∈ base, s.contains entity = true)) := by
  refine ⟨fun slices => ⟨?_, ?_⟩, sparseIterItems_mem⟩
  · rw [split_sparse_entities, splitSparseEntitiesGo_eq_none]
    simp
  · intro vs h
    obtain ⟨h1, h2, _⟩ := splitSparseEntitiesGo_spec slices none vs h
    rcases h1 with h1 | h1
    · exact ⟨h1, h2⟩
    · cases h1

/-- Witness for C3: a one-entity slice is selected and its entity, present in
the base array and unconstrained by empty include/exclude lists, is
yielded. -/
theorem c3_sparse_iteration_witness :
    (some [c3Entity] ∈ ([some [c3Entity], none] : List (Option (List Entity))) ∧
      ∀ ws, some ws ∈ ([some [c3Entity], none] : List (Option (List Entity))) →
        [c3Entity].length ≤ ws.length) ∧
    (∃ indexes, (c3Entity, indexes) ∈ sparseIterItems [c3Entity] [c3Array] [] []) :=
  ⟨(c3_sparse_iteration.1 [some [c3Entity], none]).2 [c3Entity] rfl,
    (c3_sparse_iteration.2 [c3Entity] [c3Array] [] [] c3Entity).mpr (by decide)⟩

/-- C10: the empty query contains every entity both positively and
negatively, `get` always succeeds, and splitting yields no entity slice; as a
consequence an empty include list constrains nothing and an empty exclude
list excludes nothing in sparse iteration. -/
theorem c10_empty_query :
    (∀ entity : Entity, UnitQuery.contains_all () entity = true) ∧
    (∀ entity : Entity, UnitQuery.contains_none () entity = true) ∧
    (∀ entity : Entity, UnitQuery.get () entity = some ()) ∧
    UnitQuery.split_sparse () = (none, ()) ∧
    (∀ entity : Entity, includes_split [] entity = true) ∧
    (∀ entity : Entity, excludes_split [] entity = true) ∧
    (∀ (entities : List Entity) (base : List SparseArray) (entity : Entity),
      (∃ indexes, (entity, indexes) ∈ sparseIterItems entities base [] []) ↔
        (entity ∈ entities ∧ ∀ s ∈ base, s.contains entity = true)) := by
  refine ⟨fun _ => rfl, fun _ => rfl, fun _ => rfl, rfl, fun _ => rfl,
    fun _ => rfl, ?_⟩
  intro entities base entity
  rw [sparseIterItems_mem]
  simp [includes_split, excludes_split]

/-- Witness for C10: on concrete data, the unit query answers and the
unconstrained sparse iteration yields the base entity. -/
theorem c10_empty_query_witness :
    UnitQuery.get () c3Entity = some () ∧
    (∃ indexes, (c3Entity, indexes) ∈ sparseIterItems [c3Entity] [c3Array] [] []) :=
  ⟨c10_empty_query.2.2.1 c3Entity,
    (c10_empty_query.2.2.2.2.2.2 [c3Entity] [c3Array] c3Entity).mpr (by decide)⟩

theorem getComponent_setComponent_same (components : List (String × Entity × Nat))
    (ty : String) (entity : Entity) (value : Nat) :
    getComponent (setComponent components ty entity value) ty entity = some value := by
  unfold getComponent setComponent
  rw [List.find?_append]
  have hnone : (components.filter
      (fun p => !(p.1 == ty && p.2.1 == entity))).find?
        (fun p => p.1 == ty && p.2.1 == entity) = none := by
    rw [List.find?_eq_none]
    intro x hx
    have := (List.mem_filter.mp hx).2
    simp only [Bool.not_eq_true'] at this
    simp [this]
  rw [hnone]
  simp

theorem getComponent_setComponent_ne (components : List (String × Entity × Nat))
    (ty ty2 : String) (entity entity2 : Entity) (value : Nat)
    (h : ty2 ≠ ty) :
    getComponent (setComponent components ty entity value) ty2 entity2 =
      getComponent components ty2 entity2 := by
  unfold getComponent setComponent
  rw [List.find?_append]
  have hlast : ([(ty, entity, value)].find?
      (fun p => p.1 == ty2 && p.2.1 == entity2)) = none := by
    simp [Ne.symm h]
  rw [hlast]
  have hfilter : (components.filter
      (fun p => !(p.1 == ty && p.2.1 == entity))).find?
        (fun p => p.1 == ty2 && p.2.1 == entity2) =
      components.find? (fun p => p.1 == ty2 && p.2.1 == entity2) := by
    induction components with
    | nil => rfl
    | cons x rest ih =>
        rw [List.filter_cons]
        by_cases hq : (!(x.1 == ty && x.2.1 == entity)) = true
        · rw [if_pos hq, List.find?_cons, List.find?_cons]
          by_cases hp : (x.1 == ty2 && x.2.1 == entity2) = true
          · rw [hp]
          · rw [Bool.eq_false_iff.mpr hp]
            exact ih
        · rw [if_neg hq]
          have hx : (x.1 == ty && x.2.1 == entity) = true := by
            simpa using hq
          obtain ⟨hx1, _⟩ : x.1 = ty ∧ x.2.1 = entity := by simpa using hx
          have hp : (x.1 == ty2 && x.2.1 == entity2) = false := by
            simp [hx1, Ne.symm h]
          rw [List.find?_cons, hp]
          exact ih
  rw [hfilter]
  simp

theorem insertComponentsGo_some (registered : List String) (entity : Entity) :
    ∀ (tuple : List (String × Nat)) (components : List (String × Entity × Nat)),
      (∀ c ∈ tuple, registered.contains c.1 = true) →
      ∃ table, insertComponentsGo registered components entity tuple = some table := by
  intro tuple
  induction tuple with
  | nil => intro components _; exact ⟨components, rfl⟩
  | cons c rest ih =>
      intro components h
      obtain ⟨ty, value⟩ := c
      have hreg : registered.contains ty = true := h (ty, value) (by simp)
      obtain ⟨table, htable⟩ :=
        ih (setComponent components ty entity value)
          (fun c hc => h c (by simp [hc]))
      refine ⟨table, ?_⟩
      rw [insertComponentsGo, if_pos hreg]
      exact htable

theorem insertComponentsGo_preserves (registered : List String) (entity : Entity)
    (ty : String) :
    ∀ (tuple : List (String × Nat)) (components table : List (String × Entity × Nat)),
      insertComponentsGo registered components entity tuple = some table →
      ty ∉ tuple.map Prod.fst →
      getComponent table ty entity = getComponent components ty entity := by
  intro tuple
  induction tuple with
  | nil =>
      intro components table h _
      have : components = table := by simpa [insertComponentsGo] using h
      rw [this]
  | cons c rest ih =>
      intro components table h hnot
      obtain ⟨ty2, value⟩ := c
      by_cases hreg : registered.contains ty2 = true
      · rw [insertComponentsGo, if_pos hreg] at h
        have hne : ty ≠ ty2 := by
          intro heq
          exact hnot (by simp [heq])
        have hrest : ty ∉ rest.map Prod.fst := by
          intro hmem
          exact hnot (by simp [hmem])
        rw [ih (setComponent components ty2 entity value) table h hrest]
        exact getComponent_setComponent_ne components ty2 ty entity entity value hne
      · rw [insertComponentsGo, if_neg hreg] at h
        cases h

theorem insertComponentsGo_values (registered : List String) (entity : Entity) :
    ∀ (tuple : List (String × Nat)) (components table : List (String × Entity × Nat)),
      (tuple.map Prod.fst).Nodup →
      insertComponentsGo registered components entity tuple = some table →
      ∀ c ∈ tuple, getComponent table c.1 entity = some c.2 := by
  intro tuple
  induction tuple with
  | nil => intro components table _ _ c hc; cases hc
  | cons c0 rest ih =>
      intro components table hnodup h c hc
      obtain ⟨ty, value⟩ := c0
      by_cases hreg : registered.contains ty = true
      · rw [insertComponentsGo, if_pos hreg] at h
        have hnodup' : ty ∉ rest.map Prod.fst ∧ (rest.map Prod.fst).Nodup := by
          rw [List.map_cons, List.nodup_cons] at hnodup
          exact hnodup
        rcases List.mem_cons.mp hc with hc | hc
        · subst hc
          rw [insertComponentsGo_preserves registered entity ty rest _ table h
            hnodup'.1]
          exact getComponent_setComponent_same components ty entity value
        · exact ih (setComponent components ty entity value) table hnodup'.2 h c hc
      · rw [insertComponentsGo, if_neg hreg] at h
        cases h

/-- C6: appending components to an entity not contained in the world fails
with `Err(NoSuchEntity)` before any storage is touched (no panic regardless of
the tuple, world unchanged); appending to a contained entity with registered
component types inserts the components and returns `Ok(())`, leaving the
entity set, the tick and the registrations unchanged. -/
theorem c6_world_append (world : World) (entity : Entity)
    (tuple : List (String × Nat)) :
    (world.contains entity = false →
      world.append entity tuple = some (world, Except.error NoSuchEntity.mk)) ∧
    (world.contains entity = true →
      (∀ c ∈ tuple, world.registered.contains c.1 = true) →
      ∃ world2, world.append entity tuple = some (world2, Except.ok ()) ∧
        world2.entities = world.entities ∧ world2.tick = world.tick ∧
        world2.registered = world.registered ∧
        ((tuple.map Prod.fst).Nodup →
          ∀ c ∈ tuple, getComponent world2.components c.1 entity = some c.2)) := by
  constructor
  · intro h
    simp [World.append, h]
  · intro h hreg
    obtain ⟨table, htable⟩ :=
      insertComponentsGo_some world.registered entity tuple world.components hreg
    refine ⟨{ world with components := table }, ?_, rfl, rfl, rfl, ?_⟩
    · simp [World.append, h, htable]
    · intro hnodup c hc
      exact insertComponentsGo_values world.registered entity tuple
        world.components table hnodup htable c hc

/-- Witness for C6: appending to a missing entity fails and leaves the world
unchanged; appending to a live entity stores the component. -/
theorem c6_world_append_witness :
    (c6EmptyWorld.append ⟨0, 1⟩ [("Position", 7)] =
      some (c6EmptyWorld, Except.error NoSuchEntity.mk)) ∧
    (∃ world2, c6World.append ⟨0, 1⟩ [("Position", 7)] =
        some (world2, Except.ok ()) ∧
      world2.entities = c6World.entities ∧ world2.tick = c6World.tick ∧
      world2.registered = c6World.registered ∧
      (([("Position", 7)].map Prod.fst).Nodup →
        ∀ c ∈ [("Position", 7)],
          getComponent world2.components c.1 ⟨0, 1⟩ = some c.2)) :=
  ⟨(c6_world_append c6EmptyWorld ⟨0, 1⟩ [("Position", 7)]).1 (by decide),
    (c6_world_append c6World ⟨0, 1⟩ [("Position", 7)]).2 (by decide)
      (by decide)⟩

theorem testBit_lor_changed (n : Nat) : (n ||| CHANGED).testBit 1 = true := by
  have h2 : Nat.testBit CHANGED 1 = true := by decide
  rw [Nat.testBit_lor, h2, Bool.or_true]

theorem runAccesses_testBit_persists (accesses : List (RefAccess Nat)) :
    ∀ self : ComponentRefMut Nat, self.flags.testBit 1 = true →
      (runAccesses self accesses).flags.testBit 1 = true := by
  induction accesses with
  | nil => intro self h; exact h
  | cons a rest ih =>
      intro self h
      cases a with
      | shared => exact ih self h
      | write value =>
          exact ih (applyAccess self (RefAccess.write value))
            (testBit_lor_changed self.flags)

/-- C9: a mutable dereference through `ComponentRefMut` marks the slot's
`CHANGED` flag (and only reads the data otherwise untouched), so after any
sequence of accesses containing a write the flag is set; a purely shared
dereference performs no marking, and an all-shared sequence leaves the
reference unchanged. -/
theorem c9_mut_deref_marks_changed :
    (∀ self : ComponentRefMut Nat,
      self.deref_mut.2.flags.testBit 1 = true ∧
      self.deref_mut.1 = self.data ∧ self.deref = self.data) ∧
    (∀ (self : ComponentRefMut Nat) (accesses : List (RefAccess Nat)),
      ((∃ value, RefAccess.write value ∈ accesses) →
        (runAccesses self accesses).flags.testBit 1 = true) ∧
      ((∀ a ∈ accesses, a = RefAccess.shared) →
        runAccesses self accesses = self)) := by
  constructor
  · intro self
    exact ⟨testBit_lor_changed self.flags, rfl, rfl⟩
  · intro self accesses
    induction accesses generalizing self with
    | nil =>
        refine ⟨?_, fun _ => rfl⟩
        rintro ⟨value, hmem⟩
        cases hmem
    | cons a rest ih =>
        constructor
        · rintro ⟨value, hmem⟩
          rcases List.mem_cons.mp hmem with hmem | hmem
          · subst hmem
            exact runAccesses_testBit_persists rest
              (applyAccess self (RefAccess.write value))
              (testBit_lor_changed self.flags)
          · exact (ih (applyAccess self a)).1 ⟨value, hmem⟩
        · intro hshared
          have ha : a = RefAccess.shared := hshared a (by simp)
          subst ha
          exact (ih self).2 (fun b hb => hshared b (by simp [hb]))

/-- Witness for C9: a write through the reference sets the `CHANGED` bit; an
all-shared access sequence leaves the reference untouched. -/
theorem c9_mut_deref_marks_changed_witness :
    (runAccesses ⟨5, 0⟩ [RefAccess.shared, RefAccess.write 7]).flags.testBit 1
        = true ∧
    runAccesses (⟨5, 0⟩ : ComponentRefMut Nat) [RefAccess.shared] = ⟨5, 0⟩ :=
  ⟨(c9_mut_deref_marks_changed.2 ⟨5, 0⟩
      [RefAccess.shared, RefAccess.write 7]).1 ⟨7, by simp⟩,
    (c9_mut_deref_marks_changed.2 ⟨5, 0⟩ [RefAccess.shared]).2 (by simp)⟩

end Sparsey
